import Mathlib

/-!
Verification of the job/task scheduling engine of the Cache-Warmer crawl
orchestrator.  The Go source is shallowly embedded: each database operation
(`UpdateJobProgress`, `EnqueueURLs`, `GetNextPendingTask`, `CancelJob`, the
completion-monitor statement, the serialized writer's `processOperations`,
`ExecuteWithRetry`) becomes a pure Lean function on explicit job/task state;
a SQL transaction becomes one atomic state transition; `time.Now()` becomes
an explicit `now : Nat` parameter; `float64` progress is modelled with `ℚ`.
-/

namespace CacheWarmer

/-- A row of the `tasks` table (internal/db/queue.go, `Task`).  Timestamps are
naturals (milliseconds); `none` models a NULL timestamp. -/
structure Task where
  id : String
  jobId : String
  pageId : Int
  path : String
  status : String
  depth : Int
  createdAt : Nat
  startedAt : Option Nat
  completedAt : Option Nat
  retryCount : Nat
  sourceType : String
  sourceURL : String
  deriving Repr, DecidableEq

/-- A row of the `jobs` table restricted to the columns the verified
operations touch. -/
structure Job where
  id : String
  status : String
  totalTasks : Int
  completedTasks : Int
  failedTasks : Int
  progress : ℚ
  completedAt : Option Nat
  deriving Repr, DecidableEq

/-- Number of tasks of job `jobId` having status `s` — the
`COUNT(*) FILTER (WHERE t.status = ...)` aggregate of `UpdateJobProgress`. -/
def countStatus (tasks : List Task) (jobId s : String) : Nat :=
  (tasks.filter (fun t => t.jobId == jobId && t.status == s)).length

/-- Embedding of `DbQueue.UpdateJobProgress` (internal/db/queue.go).  Reads
`jobs.total_tasks` and the completed/failed aggregates, computes the progress
percentage (guarded division), then performs the single UPDATE: progress and
the two counters are always written; the status CASE sets `completed` whenever
`progress >= 100` (the SQL has no `status = 'running'` guard), and the
completed_at CASE writes `NOW()` under the same condition. -/
def UpdateJobProgress (job : Job) (tasks : List Task) (now : Nat) : Job :=
  let comp := countStatus tasks job.id "completed"
  let fail := countStatus tasks job.id "failed"
  let progress : ℚ :=
    if job.totalTasks > 0 then (((comp : ℚ) + (fail : ℚ)) / (job.totalTasks : ℚ)) * 100
    else 0
  { job with
    progress := progress
    completedTasks := (comp : Int)
    failedTasks := (fail : Int)
    status := if progress ≥ 100 then "completed" else job.status
    completedAt := if progress ≥ 100 then some now else job.completedAt }

/-- A one-task job used to exhibit the missing `status = 'running'` guard. -/
def cancelledJob : Job :=
  { id := "job1", status := "cancelled", totalTasks := 1, completedTasks := 0,
    failedTasks := 0, progress := 0, completedAt := some 3 }

/-- The single task of `cancelledJob`, already completed. -/
def doneTask : Task :=
  { id := "t1", jobId := "job1", pageId := 7, path := "/a", status := "completed",
    depth := 0, createdAt := 1, startedAt := some 2, completedAt := some 3,
    retryCount := 0, sourceType := "manual", sourceURL := "" }

/-- C1: the code violates the claim.  `UpdateJobProgress` on a job whose
status is `cancelled` (not `running`) with all tasks terminal computes
progress 100 and rewrites the status to `completed`: the SQL CASE
`WHEN progress >= 100 THEN 'completed'` carries no `status = 'running'`
guard, so a cancelled job is resurrected to completed. -/
theorem updateJobProgress_resurrects_cancelled :
    (UpdateJobProgress cancelledJob [doneTask] 9).status = "completed" ∧
      cancelledJob.status = "cancelled" ∧
      (UpdateJobProgress cancelledJob [doneTask] 9).completedAt = some 9 := by
  refine ⟨?_, rfl, ?_⟩ <;>
    simp [UpdateJobProgress, cancelledJob, doneTask, countStatus]

/-- A running one-task job used for the idempotence counterexample. -/
def runningJob : Job :=
  { id := "job1", status := "running", totalTasks := 1, completedTasks := 0,
    failedTasks := 0, progress := 0, completedAt := none }

/-- C4: the code violates the claim.  With the job's single task completed,
the first `UpdateJobProgress` (at time 5) reaches progress 100 and writes
`completed_at = 5`; the second call (at time 7), with no intervening task
change, recomputes progress 100 and overwrites `completed_at` with the new
NOW() — the row state of the two calls differs. -/
theorem updateJobProgress_not_idempotent :
    (UpdateJobProgress (UpdateJobProgress runningJob [doneTask] 5) [doneTask] 7).completedAt ≠
      (UpdateJobProgress runningJob [doneTask] 5).completedAt := by
  simp [UpdateJobProgress, runningJob, doneTask, countStatus]

/-- C10: when `total_tasks = 0` the division is skipped by the
`totalTasks > 0` guard, progress is written as 0, and since 0 < 100 the
status CASE and completed_at CASE both keep their old values. -/
theorem updateJobProgress_zero_total (job : Job) (tasks : List Task) (now : Nat)
    (h : job.totalTasks = 0) :
    (UpdateJobProgress job tasks now).progress = 0 ∧
      (UpdateJobProgress job tasks now).status = job.status ∧
      (UpdateJobProgress job tasks now).completedAt = job.completedAt := by
  simp [UpdateJobProgress, h]

/-- An empty job with no tasks yet, used as a witness input. -/
def emptyJob : Job :=
  { id := "job2", status := "pending", totalTasks := 0, completedTasks := 0,
    failedTasks := 0, progress := 0, completedAt := none }

/-- Witness for C10 at a concrete zero-task job. -/
theorem updateJobProgress_zero_total_witness :
    (UpdateJobProgress emptyJob [] 4).progress = 0 ∧
      (UpdateJobProgress emptyJob [] 4).status = emptyJob.status ∧
      (UpdateJobProgress emptyJob [] 4).completedAt = emptyJob.completedAt :=
  updateJobProgress_zero_total emptyJob [] 4 rfl

/-- The slice of database state `EnqueueURLs` touches: the job row being
enqueued into and the `tasks` table. -/
structure EnqueueState where
  job : Job
  tasks : List Task
  deriving Repr, DecidableEq

/-- The rows inserted by the loop body of `EnqueueURLs`: it walks the batch
with its index `i`, skips entries whose `pageID` is 0 (`if pageID == 0
{ continue }`), and inserts the rest with status `pending`, `created_at = now`
and `retry_count = 0`.  `mkId i` stands for the fresh UUID of the i-th entry. -/
def enqueueTaskRowsAux (jobId sourceType sourceURL : String) (depth : Int) (now : Nat)
    (mkId : Nat → String) : Nat → List (Int × String) → List Task
  | _, [] => []
  | i, (pid, p) :: rest =>
    if pid = 0 then enqueueTaskRowsAux jobId sourceType sourceURL depth now mkId (i + 1) rest
    else
      { id := mkId i, jobId := jobId, pageId := pid, path := p, status := "pending",
        depth := depth, createdAt := now, startedAt := none, completedAt := none,
        retryCount := 0, sourceType := sourceType, sourceURL := sourceURL } ::
        enqueueTaskRowsAux jobId sourceType sourceURL depth now mkId (i + 1) rest

/-- All task rows inserted for a batch (`pageIDs` paired with `paths`). -/
def enqueueTaskRows (jobId : String) (pageIDs : List Int) (paths : List String)
    (sourceType sourceURL : String) (depth : Int) (now : Nat) (mkId : Nat → String) : List Task :=
  enqueueTaskRowsAux jobId sourceType sourceURL depth now mkId 0 (pageIDs.zip paths)

/-- Embedding of `DbQueue.EnqueueURLs` (internal/db/queue.go).  An empty batch
returns immediately; otherwise one transaction (one state transition) bumps
`jobs.total_tasks` by `len(pageIDs)` and appends the inserted rows. -/
def EnqueueURLs (st : EnqueueState) (jobID : String) (pageIDs : List Int) (paths : List String)
    (sourceType sourceURL : String) (depth : Int) (now : Nat) (mkId : Nat → String) :
    EnqueueState :=
  if pageIDs.length = 0 then st
  else
    { job :=
        if st.job.id == jobID then
          { st.job with totalTasks := st.job.totalTasks + (pageIDs.length : Int) }
        else st.job
      tasks := st.tasks ++ enqueueTaskRows jobID pageIDs paths sourceType sourceURL depth now mkId }

/-- C2 counterexample: with the non-empty batch `pageIDs = [0]`,
`EnqueueURLs` increments `total_tasks` by 1 (the batch length) yet inserts no
row (the loop skips `pageID == 0`), so the increment differs from the number
of inserted rows and the final `total_tasks` (1) exceeds the number of task
rows of the job (0) — refuting both parts of the claim. -/
theorem enqueueURLs_counts_skipped_rows :
    (EnqueueURLs ⟨emptyJob, []⟩ "job2" [0] ["/a"] "manual" "" 0 5 (fun _ => "t")).job.totalTasks
        = 1 ∧
      (EnqueueURLs ⟨emptyJob, []⟩ "job2" [0] ["/a"] "manual" "" 0 5 (fun _ => "t")).tasks = [] := by
  constructor <;> rfl

/-- Every row produced by the insert loop carries status `pending`, the target
job id, and the batch's `created_at`. -/
theorem enqueueTaskRowsAux_fields (jobId sourceType sourceURL : String) (depth : Int)
    (now : Nat) (mkId : Nat → String) (i : Nat) (l : List (Int × String)) :
    ∀ t ∈ enqueueTaskRowsAux jobId sourceType sourceURL depth now mkId i l,
      t.status = "pending" ∧ t.jobId = jobId ∧ t.createdAt = now := by
  induction l generalizing i with
  | nil => intro t ht; simp [enqueueTaskRowsAux] at ht
  | cons hd rest ih =>
    intro t ht
    rw [enqueueTaskRowsAux] at ht
    by_cases h0 : hd.1 = 0
    · rw [if_pos h0] at ht
      exact ih (i + 1) t ht
    · rw [if_neg h0] at ht
      rcases List.mem_cons.mp ht with h | h
      · subst h; exact ⟨rfl, rfl, rfl⟩
      · exact ih (i + 1) t h

/-- The loop inserts exactly one row per batch entry whose pageID is nonzero. -/
theorem enqueueTaskRowsAux_length (jobId sourceType sourceURL : String) (depth : Int)
    (now : Nat) (mkId : Nat → String) (i : Nat) (l : List (Int × String)) :
    (enqueueTaskRowsAux jobId sourceType sourceURL depth now mkId i l).length
      = (l.filter (fun pr => !(pr.1 == 0))).length := by
  induction l generalizing i with
  | nil => rfl
  | cons hd rest ih =>
    rw [enqueueTaskRowsAux]
    by_cases h0 : hd.1 = 0
    · rw [if_pos h0]
      simp [List.filter_cons, h0, ih (i + 1)]
    · rw [if_neg h0]
      simp [List.filter_cons, h0, ih (i + 1)]

/-- C2 amended: for a non-empty batch addressed to the state's job,
`EnqueueURLs` performs a single atomic transition that increments
`total_tasks` by the full batch length `len(pageIDs)` and appends exactly the
rows for entries with nonzero pageID, every appended row having status
`pending`; when the batch contains a zero pageID the increment exceeds the
number of inserted rows. -/
theorem enqueueURLs_batch_spec (st : EnqueueState) (jobID : String) (pageIDs : List Int)
    (paths : List String) (sourceType sourceURL : String) (depth : Int) (now : Nat)
    (mkId : Nat → String) (hne : pageIDs ≠ []) (hid : st.job.id = jobID) :
    (EnqueueURLs st jobID pageIDs paths sourceType sourceURL depth now mkId).job.totalTasks
        = st.job.totalTasks + (pageIDs.length : Int) ∧
      (EnqueueURLs st jobID pageIDs paths sourceType sourceURL depth now mkId).tasks
        = st.tasks ++ enqueueTaskRows jobID pageIDs paths sourceType sourceURL depth now mkId ∧
      (∀ t ∈ enqueueTaskRows jobID pageIDs paths sourceType sourceURL depth now mkId,
        t.status = "pending" ∧ t.jobId = jobID ∧ t.createdAt = now) ∧
      (enqueueTaskRows jobID pageIDs paths sourceType sourceURL depth now mkId).length
        = ((pageIDs.zip paths).filter (fun pr => !(pr.1 == 0))).length := by
  have hlen : pageIDs.length ≠ 0 := fun h => hne (List.length_eq_zero.mp h)
  refine ⟨?_, ?_, ?_, ?_⟩
  · simp [EnqueueURLs, hlen, hid]
  · simp [EnqueueURLs, hlen]
  · exact enqueueTaskRowsAux_fields jobID sourceType sourceURL depth now mkId 0 _
  · exact enqueueTaskRowsAux_length jobID sourceType sourceURL depth now mkId 0 _

/-- Witness for C2 amended: a concrete batch of two URLs, one of them with
pageID 0, enqueued into an empty job. -/
theorem enqueueURLs_batch_spec_witness :
    (EnqueueURLs ⟨emptyJob, []⟩ "job2" [0, 7] ["/a", "/b"] "manual" "" 0 5
          (fun _ => "t")).job.totalTasks
        = (⟨emptyJob, []⟩ : EnqueueState).job.totalTasks + (([0, 7] : List Int).length : Int) ∧
      (EnqueueURLs ⟨emptyJob, []⟩ "job2" [0, 7] ["/a", "/b"] "manual" "" 0 5
          (fun _ => "t")).tasks
        = (⟨emptyJob, []⟩ : EnqueueState).tasks ++
            enqueueTaskRows "job2" [0, 7] ["/a", "/b"] "manual" "" 0 5 (fun _ => "t") ∧
      (∀ t ∈ enqueueTaskRows "job2" [0, 7] ["/a", "/b"] "manual" "" 0 5 (fun _ => "t"),
        t.status = "pending" ∧ t.jobId = "job2" ∧ t.createdAt = 5) ∧
      (enqueueTaskRows "job2" [0, 7] ["/a", "/b"] "manual" "" 0 5 (fun _ => "t")).length
        = ((([0, 7] : List Int).zip ["/a", "/b"]).filter (fun pr => !(pr.1 == 0))).length :=
  enqueueURLs_batch_spec ⟨emptyJob, []⟩ "job2" [0, 7] ["/a", "/b"] "manual" "" 0 5
    (fun _ => "t") (by simp) rfl

/-- The WHERE clause of the claim query: `status = 'pending'`, and
`AND job_id = $1` only when a job filter was supplied (`jobID != ""`). -/
def matchesFilter (jobID : String) (t : Task) : Bool :=
  t.status == "pending" && (jobID == "" || t.jobId == jobID)

/-- Combines a candidate row with the best row of the remaining table,
keeping the one with the smaller `created_at` (the candidate on ties). -/
def better (t : Task) : Option Task → Task
  | none => t
  | some b => if b.createdAt < t.createdAt then b else t

/-- The row returned by `SELECT ... WHERE status = 'pending' [AND job_id = $1]
ORDER BY created_at ASC LIMIT 1`: a matching row of minimal `created_at`
(ties resolved arbitrarily by the engine; here, the earliest in table order). -/
def selectPending (jobID : String) : List Task → Option Task
  | [] => none
  | t :: ts =>
    if matchesFilter jobID t then some (better t (selectPending jobID ts))
    else selectPending jobID ts

/-- The `UPDATE tasks SET status = 'running', started_at = $1` applied to a
row, mirrored on the returned struct. -/
def runTask (now : Nat) (t : Task) : Task :=
  { t with status := "running", startedAt := some now }

/-- Embedding of `DbQueue.GetNextPendingTask` (internal/db/queue.go).  The
select and the update happen in one transaction, modelled as one transition;
`sql.ErrNoRows` is mapped to `(nil, nil)`, i.e. no task and no error, with
the table untouched. -/
def GetNextPendingTask (jobID : String) (now : Nat) (tasks : List Task) :
    Option Task × List Task :=
  match selectPending jobID tasks with
  | none => (none, tasks)
  | some t0 =>
    (some (runTask now t0),
      tasks.map (fun u => if u.id == t0.id then runTask now u else u))

/-- When the claim query returns no row, no task of the table matches the
pending filter. -/
theorem selectPending_eq_none (jobID : String) (tasks : List Task)
    (h : selectPending jobID tasks = none) :
    ∀ t ∈ tasks, matchesFilter jobID t = false := by
  induction tasks with
  | nil => intro t ht; simp at ht
  | cons hd tl ih =>
    intro t ht
    rw [selectPending] at h
    by_cases hm : matchesFilter jobID hd
    · rw [if_pos hm] at h
      simp at h
    · rw [if_neg hm] at h
      rcases List.mem_cons.mp ht with rfl | hmem
      · simpa using hm
      · exact ih h t hmem

/-- The row returned by the claim query is a row of the table and matches the
pending filter. -/
theorem selectPending_mem (jobID : String) : ∀ (tasks : List Task) (t0 : Task),
    selectPending jobID tasks = some t0 →
    t0 ∈ tasks ∧ matchesFilter jobID t0 = true := by
  intro tasks
  induction tasks with
  | nil => intro t0 h; simp [selectPending] at h
  | cons hd tl ih =>
    intro t0 h
    rw [selectPending] at h
    by_cases hm : matchesFilter jobID hd
    · rw [if_pos hm] at h
      cases hrest : selectPending jobID tl with
      | none =>
        rw [hrest] at h
        simp [better] at h
        subst h
        exact ⟨List.mem_cons_self _ _, hm⟩
      | some b =>
        rw [hrest] at h
        simp [better] at h
        subst h
        by_cases hlt : b.createdAt < hd.createdAt
        · rw [if_pos hlt]
          rcases ih b hrest with ⟨hmem, hmatch⟩
          exact ⟨List.mem_cons_of_mem _ hmem, hmatch⟩
        · rw [if_neg hlt]
          exact ⟨List.mem_cons_self _ _, hm⟩
    · rw [if_neg hm] at h
      rcases ih t0 h with ⟨hmem, hmatch⟩
      exact ⟨List.mem_cons_of_mem _ hmem, hmatch⟩

/-- The row returned by the claim query has minimal `created_at` among the
matching rows (the ORDER BY created_at ASC LIMIT 1 contract). -/
theorem selectPending_min (jobID : String) : ∀ (tasks : List Task) (t0 : Task),
    selectPending jobID tasks = some t0 →
    ∀ u ∈ tasks, matchesFilter jobID u = true → t0.createdAt ≤ u.createdAt := by
  intro tasks
  induction tasks with
  | nil => intro t0 h; simp [selectPending] at h
  | cons hd tl ih =>
    intro t0 h u hu hmu
    rw [selectPending] at h
    by_cases hm : matchesFilter jobID hd
    · rw [if_pos hm] at h
      cases hrest : selectPending jobID tl with
      | none =>
        rw [hrest] at h
        simp [better] at h
        subst h
        rcases List.mem_cons.mp hu with rfl | hmem
        · exact Nat.le_refl _
        · have hf := selectPending_eq_none jobID tl hrest u hmem
          simp [hf] at hmu
      | some b =>
        rw [hrest] at h
        simp [better] at h
        subst h
        by_cases hlt : b.createdAt < hd.createdAt
        · rw [if_pos hlt]
          rcases List.mem_cons.mp hu with rfl | hmem
          · exact Nat.le_of_lt hlt
          · exact ih b hrest u hmem hmu
        · rw [if_neg hlt]
          rcases List.mem_cons.mp hu with rfl | hmem
          · exact Nat.le_refl _
          · exact Nat.le_trans (Nat.le_of_not_lt hlt) (ih b hrest u hmem hmu)
    · rw [if_neg hm] at h
      rcases List.mem_cons.mp hu with rfl | hmem
      · simp [hm] at hmu
      · exact ih t0 h u hmem hmu

/-- C5: `GetNextPendingTask` returns `none` with the table untouched exactly
when no pending task matches the filter; otherwise it returns a pending,
filter-matching row of minimal `created_at`, transitioned to `running` with
`started_at = now`, and the same transition is the only change to the table. -/
theorem getNextPendingTask_spec (jobID : String) (now : Nat) (tasks : List Task) :
    ((GetNextPendingTask jobID now tasks).1 = none →
        (GetNextPendingTask jobID now tasks).2 = tasks ∧
          ∀ t ∈ tasks, matchesFilter jobID t = false) ∧
      (∀ t, (GetNextPendingTask jobID now tasks).1 = some t →
        ∃ t0, t0 ∈ tasks ∧ matchesFilter jobID t0 = true ∧ t = runTask now t0 ∧
          (∀ u ∈ tasks, matchesFilter jobID u = true → t0.createdAt ≤ u.createdAt) ∧
          (GetNextPendingTask jobID now tasks).2
            = tasks.map (fun u => if u.id == t0.id then runTask now u else u)) := by
  cases hsel : selectPending jobID tasks with
  | none =>
    constructor
    · intro _
      exact ⟨by simp [GetNextPendingTask, hsel], selectPending_eq_none jobID tasks hsel⟩
    · intro t ht
      simp [GetNextPendingTask, hsel] at ht
  | some t0 =>
    constructor
    · intro hnone
      simp [GetNextPendingTask, hsel] at hnone
    · intro t ht
      rcases selectPending_mem jobID tasks t0 hsel with ⟨hmem, hmatch⟩
      refine ⟨t0, hmem, hmatch, ?_, selectPending_min jobID tasks t0 hsel, ?_⟩
      · simp [GetNextPendingTask, hsel] at ht
        exact ht.symm
      · simp [GetNextPendingTask, hsel]

/-- A pending task created at time 10. -/
def pendingTaskA : Task :=
  { id := "a", jobId := "job1", pageId := 1, path := "/a", status := "pending",
    depth := 0, createdAt := 10, startedAt := none, completedAt := none,
    retryCount := 0, sourceType := "manual", sourceURL := "" }

/-- A pending task created later, at time 20. -/
def pendingTaskB : Task :=
  { id := "b", jobId := "job1", pageId := 2, path := "/b", status := "pending",
    depth := 0, createdAt := 20, startedAt := none, completedAt := none,
    retryCount := 0, sourceType := "manual", sourceURL := "" }

/-- Witness for C5: on a table holding the two pending tasks (the later-created
one first), the claim returns the earlier-created task, running. -/
theorem getNextPendingTask_spec_witness :
    ∃ t0, t0 ∈ [pendingTaskB, pendingTaskA] ∧ matchesFilter "" t0 = true ∧
      runTask 30 pendingTaskA = runTask 30 t0 ∧
      (∀ u ∈ [pendingTaskB, pendingTaskA],
        matchesFilter "" u = true → t0.createdAt ≤ u.createdAt) ∧
      (GetNextPendingTask "" 30 [pendingTaskB, pendingTaskA]).2
        = [pendingTaskB, pendingTaskA].map
            (fun u => if u.id == t0.id then runTask 30 u else u) :=
  (getNextPendingTask_spec "" 30 [pendingTaskB, pendingTaskA]).2
    (runTask 30 pendingTaskA) rfl

/-- The ids column of a task table. -/
def taskIds (tasks : List Task) : List String :=
  tasks.map (fun t => t.id)

/-- Number of rows matching the claim query's WHERE clause. -/
def pendingCount (jobID : String) (tasks : List Task) : Nat :=
  (tasks.filter (matchesFilter jobID)).length

/-- Collects one claim attempt's result in front of the later results. -/
def claimStep : Option Task → List Task × List Task → List Task × List Task
  | none, rest => rest
  | some t, rest => (t :: rest.1, rest.2)

/-- An interleaved execution of `GetNextPendingTask` by any number of
workers: each transaction is atomic (`FOR UPDATE SKIP LOCKED` serialises the
claims), so a concurrent run is a sequence of claim transitions.  Returns the
successfully claimed tasks in claim order and the final table. -/
def runClaims (jobID : String) : List Nat → List Task → List Task × List Task
  | [], tasks => ([], tasks)
  | now :: nows, tasks =>
    claimStep (GetNextPendingTask jobID now tasks).1
      (runClaims jobID nows (GetNextPendingTask jobID now tasks).2)

/-- Unfolding of one failed claim attempt. -/
theorem runClaims_cons_none (jobID : String) (now : Nat) (nows : List Nat)
    (tasks : List Task) (h : (GetNextPendingTask jobID now tasks).1 = none) :
    runClaims jobID (now :: nows) tasks
      = runClaims jobID nows (GetNextPendingTask jobID now tasks).2 := by
  rw [runClaims, h, claimStep]

/-- A successful claim attempt prepends the claimed task to the results. -/
theorem runClaims_cons_some_fst (jobID : String) (now : Nat) (nows : List Nat)
    (tasks : List Task) (t : Task) (h : (GetNextPendingTask jobID now tasks).1 = some t) :
    (runClaims jobID (now :: nows) tasks).1
      = t :: (runClaims jobID nows (GetNextPendingTask jobID now tasks).2).1 := by
  rw [runClaims, h, claimStep]

/-- A successful claim attempt continues from the updated table. -/
theorem runClaims_cons_some_snd (jobID : String) (now : Nat) (nows : List Nat)
    (tasks : List Task) (t : Task) (h : (GetNextPendingTask jobID now tasks).1 = some t) :
    (runClaims jobID (now :: nows) tasks).2
      = (runClaims jobID nows (GetNextPendingTask jobID now tasks).2).2 := by
  rw [runClaims, h, claimStep]

/-- A claim never changes the ids column of the table. -/
theorem getNextPendingTask_ids (jobID : String) (now : Nat) (tasks : List Task) :
    taskIds (GetNextPendingTask jobID now tasks).2 = taskIds tasks := by
  cases hsel : selectPending jobID tasks with
  | none => simp [GetNextPendingTask, hsel]
  | some t0 =>
    simp only [GetNextPendingTask, hsel, taskIds, List.map_map]
    refine List.map_congr_left ?_
    intro u _
    by_cases h : u.id == t0.id <;> simp [h, runTask, Function.comp]

/-- A running row never matches the pending filter. -/
theorem runTask_not_matching (jobID : String) (now : Nat) (t : Task) :
    matchesFilter jobID (runTask now t) = false := by
  simp [matchesFilter, runTask]

/-- Claiming a pending row removes exactly one row from the pending set:
the update rewrites the unique row with the claimed id to `running` and
leaves every other row unchanged. -/
theorem filter_length_update (jobID : String) (now : Nat) (t0 : Task) :
    ∀ l : List Task, (taskIds l).Nodup → t0 ∈ l → matchesFilter jobID t0 = true →
      ((l.map (fun u => if u.id == t0.id then runTask now u else u)).filter
            (matchesFilter jobID)).length + 1
        = (l.filter (matchesFilter jobID)).length := by
  intro l
  induction l with
  | nil => intro _ hmem _; simp at hmem
  | cons u rest ih =>
    intro hN hmem hmatch
    have hNc : (u.id :: taskIds rest).Nodup := by
      simpa only [taskIds, List.map_cons] using hN
    have hN2 := List.nodup_cons.mp hNc
    by_cases hcase : u.id == t0.id
    · have hu : t0 = u := by
        rcases List.mem_cons.mp hmem with rfl | hmem2
        · rfl
        · refine absurd ?_ hN2.1
          have := List.mem_map_of_mem (fun t : Task => t.id) hmem2
          rw [beq_iff_eq.mp hcase]
          exact this
      have hrest : rest.map (fun v => if v.id == t0.id then runTask now v else v) = rest := by
        refine (List.map_congr_left ?_).trans (List.map_id rest)
        intro v hv
        have hvne : ¬(v.id == t0.id) = true := by
          intro hveq
          refine hN2.1 ?_
          have := List.mem_map_of_mem (fun t : Task => t.id) hv
          rw [beq_iff_eq.mp hcase, ← beq_iff_eq.mp hveq]
          exact this
        rw [if_neg hvne]
        rfl
      have hmu : matchesFilter jobID u = true := by rw [← hu]; exact hmatch
      have hnm : ¬(matchesFilter jobID (runTask now u) = true) := by
        rw [runTask_not_matching]; simp
      simp only [List.map_cons, if_pos hcase, hrest]
      rw [List.filter_cons, List.filter_cons, if_neg hnm, if_pos hmu, List.length_cons]
    · have hmem2 : t0 ∈ rest := by
        rcases List.mem_cons.mp hmem with rfl | hmem2
        · exact absurd (beq_iff_eq.mpr rfl) hcase
        · exact hmem2
      have hih := ih hN2.2 hmem2 hmatch
      simp only [List.map_cons, if_neg hcase]
      rw [List.filter_cons, List.filter_cons]
      by_cases hmu : matchesFilter jobID u = true
      · rw [if_pos hmu, if_pos hmu, List.length_cons, List.length_cons]
        omega
      · rw [if_neg hmu, if_neg hmu]
        exact hih

/-- Any member of the updated table is an `upd`-image of a member of the
original table. -/
theorem mem_update_table {tasks : List Task} {row : Task} (t0 : Task) (now : Nat)
    (h : row ∈ tasks.map (fun u => if u.id == t0.id then runTask now u else u)) :
    ∃ v, v ∈ tasks ∧ row = (if v.id == t0.id then runTask now v else v) := by
  rcases List.mem_map.mp h with ⟨v, hv, hveq⟩
  exact ⟨v, hv, hveq.symm⟩

/-- Claiming preserves how many successes plus remaining pending rows there
are: every successful claim converts exactly one pending row. -/
theorem runClaims_count (jobID : String) : ∀ (nows : List Nat) (tasks : List Task),
    (taskIds tasks).Nodup →
    (runClaims jobID nows tasks).1.length + pendingCount jobID (runClaims jobID nows tasks).2
      = pendingCount jobID tasks := by
  intro nows
  induction nows with
  | nil => intro tasks _; simp [runClaims]
  | cons now nows ih =>
    intro tasks hN
    have hN2 : (taskIds (GetNextPendingTask jobID now tasks).2).Nodup := by
      rw [getNextPendingTask_ids]; exact hN
    have hih := ih (GetNextPendingTask jobID now tasks).2 hN2
    cases hsel : selectPending jobID tasks with
    | none =>
      have hfst : (GetNextPendingTask jobID now tasks).1 = none := by
        simp only [GetNextPendingTask, hsel]
      have hstate : (GetNextPendingTask jobID now tasks).2 = tasks := by
        simp only [GetNextPendingTask, hsel]
      rw [runClaims_cons_none jobID now nows tasks hfst, hstate]
      rw [hstate] at hih
      exact hih
    | some t0 =>
      have hfst : (GetNextPendingTask jobID now tasks).1 = some (runTask now t0) := by
        simp only [GetNextPendingTask, hsel]
      have hstate : (GetNextPendingTask jobID now tasks).2
          = tasks.map (fun u => if u.id == t0.id then runTask now u else u) := by
        simp only [GetNextPendingTask, hsel]
      have hmem := selectPending_mem jobID tasks t0 hsel
      have hupd := filter_length_update jobID now t0 tasks hN hmem.1 hmem.2
      rw [runClaims_cons_some_fst jobID now nows tasks _ hfst,
        runClaims_cons_some_snd jobID now nows tasks _ hfst, hstate]
      rw [hstate] at hih
      simp only [List.length_cons]
      unfold pendingCount at hih ⊢
      omega

/-- Each successful claim returns a task whose id names a previously pending
row, and no id is ever returned twice. -/
theorem runClaims_nodup (jobID : String) : ∀ (nows : List Nat) (tasks : List Task),
    (taskIds tasks).Nodup →
    (taskIds (runClaims jobID nows tasks).1).Nodup ∧
      ∀ r ∈ (runClaims jobID nows tasks).1,
        ∃ row, row ∈ tasks ∧ row.id = r.id ∧ matchesFilter jobID row = true := by
  intro nows
  induction nows with
  | nil => intro tasks _; constructor <;> simp [runClaims, taskIds]
  | cons now nows ih =>
    intro tasks hN
    have hN2 : (taskIds (GetNextPendingTask jobID now tasks).2).Nodup := by
      rw [getNextPendingTask_ids]; exact hN
    rcases ih (GetNextPendingTask jobID now tasks).2 hN2 with ⟨hnd, hsrc⟩
    cases hsel : selectPending jobID tasks with
    | none =>
      have hfst : (GetNextPendingTask jobID now tasks).1 = none := by
        simp only [GetNextPendingTask, hsel]
      have hstate : (GetNextPendingTask jobID now tasks).2 = tasks := by
        simp only [GetNextPendingTask, hsel]
      rw [runClaims_cons_none jobID now nows tasks hfst, hstate]
      rw [hstate] at hnd hsrc
      exact ⟨hnd, hsrc⟩
    | some t0 =>
      have hfst : (GetNextPendingTask jobID now tasks).1 = some (runTask now t0) := by
        simp only [GetNextPendingTask, hsel]
      have hstate : (GetNextPendingTask jobID now tasks).2
          = tasks.map (fun u => if u.id == t0.id then runTask now u else u) := by
        simp only [GetNextPendingTask, hsel]
      have hmem := selectPending_mem jobID tasks t0 hsel
      have hNmap : (tasks.map (fun t : Task => t.id)).Nodup := hN
      have hinj := List.inj_on_of_nodup_map (f := fun t : Task => t.id) (l := tasks) hNmap
      rw [hstate] at hnd hsrc
      constructor
      · rw [runClaims_cons_some_fst jobID now nows tasks _ hfst, hstate]
        simp only [taskIds, List.map_cons]
        refine List.nodup_cons.mpr ⟨?_, by simpa only [taskIds] using hnd⟩
        intro hmm
        rcases List.mem_map.mp hmm with ⟨r, hr, hrid⟩
        rcases hsrc r hr with ⟨row, hrow, hrowid, hrowm⟩
        rcases List.mem_map.mp hrow with ⟨v, hv, hveq⟩
        have hveq2 : (if (v.id == t0.id) = true then runTask now v else v) = row := hveq
        by_cases hc : (v.id == t0.id) = true
        · rw [if_pos hc] at hveq2
          rw [← hveq2, runTask_not_matching] at hrowm
          exact absurd hrowm (by simp)
        · rw [if_neg hc] at hveq2
          apply hc
          rw [beq_iff_eq, hveq2, hrowid, hrid]
          rfl
      · rw [runClaims_cons_some_fst jobID now nows tasks _ hfst, hstate]
        intro r hr
        rcases List.mem_cons.mp hr with rfl | hr2
        · exact ⟨t0, hmem.1, rfl, hmem.2⟩
        · rcases hsrc r hr2 with ⟨row, hrow, hrowid, hrowm⟩
          rcases List.mem_map.mp hrow with ⟨v, hv, hveq⟩
          have hveq2 : (if (v.id == t0.id) = true then runTask now v else v) = row := hveq
          by_cases hc : (v.id == t0.id) = true
          · rw [if_pos hc] at hveq2
            rw [← hveq2, runTask_not_matching] at hrowm
            exact absurd hrowm (by simp)
          · rw [if_neg hc] at hveq2
            exact ⟨row, hveq2 ▸ hv, hrowid, hrowm⟩

/-- C3: with the claim transaction atomic (the select and update of
`GetNextPendingTask` commit together, and `FOR UPDATE SKIP LOCKED` hands
concurrent workers disjoint rows), any interleaved sequence of claims over a
table with unique ids never yields the same task twice, and once the pending
set is drained the number of successful claims equals the initial number of
pending tasks M. -/
theorem claimNextPending_no_double_delivery (jobID : String) (nows : List Nat)
    (tasks : List Task) (hN : (taskIds tasks).Nodup) :
    (taskIds (runClaims jobID nows tasks).1).Nodup ∧
      (pendingCount jobID (runClaims jobID nows tasks).2 = 0 →
        (runClaims jobID nows tasks).1.length = pendingCount jobID tasks) := by
  refine ⟨(runClaims_nodup jobID nows tasks hN).1, fun hdrain => ?_⟩
  have hc := runClaims_count jobID nows tasks hN
  omega

/-- Witness for C3: three interleaved claim attempts over two pending tasks
drain the queue; the two returned tasks are distinct and number exactly M = 2. -/
theorem claimNextPending_no_double_delivery_witness :
    (taskIds (runClaims "" [1, 2, 3] [pendingTaskB, pendingTaskA]).1).Nodup ∧
      (runClaims "" [1, 2, 3] [pendingTaskB, pendingTaskA]).1.length
        = pendingCount "" [pendingTaskB, pendingTaskA] :=
  ⟨(claimNextPending_no_double_delivery "" [1, 2, 3] [pendingTaskB, pendingTaskA]
      (by decide)).1,
    (claimNextPending_no_double_delivery "" [1, 2, 3] [pendingTaskB, pendingTaskA]
      (by decide)).2 (by decide)⟩

/-- Outcome of the body `fn(tx)` of a serialized-writer work unit: `ok` with
the database state the transaction would commit, or `err` aborting it. -/
inductive TxResult (σ : Type) where
  | ok : σ → TxResult σ
  | err : String → TxResult σ
  deriving Repr, DecidableEq

/-- What one loop iteration of `processOperations` produces for a unit: the
error sent on the unit's `Done` channel (`none` on success), the database
state afterwards, and whether a transaction was opened at all. -/
structure OpOutcome (σ : Type) where
  reply : Option String
  db : σ
  txOpened : Bool
  deriving Repr, DecidableEq

/-- Embedding of one iteration of `DbQueue.processOperations`
(src/common/queue.go).  `ctxErr` is `op.Ctx.Err()` at pickup, `beginErr` a
failure of `BeginTx`, `fn` the unit's body and `commitErr` a failure of
`Commit`.  The context is checked first; on `fn` error the transaction is
rolled back (state unchanged); on success the commit's result is replied,
and only a successful commit installs the new state. -/
def processOperation {σ : Type} (ctxErr beginErr : Option String) (fn : σ → TxResult σ)
    (commitErr : Option String) (db : σ) : OpOutcome σ :=
  match ctxErr with
  | some e => { reply := some e, db := db, txOpened := false }
  | none =>
    match beginErr with
    | some e => { reply := some e, db := db, txOpened := false }
    | none =>
      match fn db with
      | .err e => { reply := some e, db := db, txOpened := true }
      | .ok db2 =>
        match commitErr with
        | some e => { reply := some e, db := db, txOpened := true }
        | none => { reply := none, db := db2, txOpened := true }

/-- C6: a unit whose context is already cancelled at pickup is discarded
without opening a transaction and its caller receives the cancellation
error; a unit whose `fn` errors is rolled back (state unchanged) with that
error returned; a unit whose `fn` succeeds is committed and the commit's
result is what the caller receives. -/
theorem processOperations_unit_spec {σ : Type} (ctxErr beginErr commitErr : Option String)
    (fn : σ → TxResult σ) (db : σ) :
    (∀ e, ctxErr = some e →
        processOperation ctxErr beginErr fn commitErr db
          = { reply := some e, db := db, txOpened := false }) ∧
      (∀ e, ctxErr = none → beginErr = none → fn db = .err e →
        processOperation ctxErr beginErr fn commitErr db
          = { reply := some e, db := db, txOpened := true }) ∧
      (∀ db2, ctxErr = none → beginErr = none → fn db = .ok db2 →
        (processOperation ctxErr beginErr fn commitErr db).reply = commitErr ∧
          (commitErr = none → (processOperation ctxErr beginErr fn commitErr db).db = db2)) := by
  refine ⟨?_, ?_, ?_⟩
  · intro e h
    subst h
    rfl
  · intro e hc hb hf
    subst hc; subst hb
    simp [processOperation, hf]
  · intro db2 hc hb hf
    subst hc; subst hb
    cases commitErr with
    | none => exact ⟨by simp [processOperation, hf], fun _ => by simp [processOperation, hf]⟩
    | some e2 => exact ⟨by simp [processOperation, hf], fun h => by cases h⟩

/-- Witness for C6: the three cases exercised on a `Nat` database state. -/
theorem processOperations_unit_spec_witness :
    processOperation (σ := Nat) (some "context canceled") none (fun n => .ok (n + 1)) none 0
        = { reply := some "context canceled", db := 0, txOpened := false } ∧
      processOperation (σ := Nat) none none (fun _ => .err "constraint violated") none 0
        = { reply := some "constraint violated", db := 0, txOpened := true } ∧
      ((processOperation (σ := Nat) none none (fun n => .ok (n + 1)) none 0).reply = none ∧
        ((none : Option String) = none →
          (processOperation (σ := Nat) none none (fun n => .ok (n + 1)) none 0).db = 1)) :=
  ⟨(processOperations_unit_spec (some "context canceled") none none (fun n => .ok (n + 1))
      0).1 "context canceled" rfl,
    (processOperations_unit_spec none none none (fun _ => .err "constraint violated")
      0).2.1 "constraint violated" rfl rfl rfl,
    (processOperations_unit_spec none none none (fun n => .ok (n + 1)) 0).2.2 1 rfl rfl rfl⟩

/-- The state the job manager operates on: the `jobs` and `tasks` tables and
the worker pool's in-memory active job set. -/
structure ManagerState where
  jobs : List Job
  tasks : List Task
  activeJobs : List String
  deriving Repr, DecidableEq

/-- The `GetJob` lookup used by `CancelJob` (first row with the given id). -/
def GetJob (jobs : List Job) (id : String) : Option Job :=
  jobs.find? (fun j => j.id == id)

/-- Modelled from the spec: `WorkerPool.RemoveJob` is referenced by
`CancelJob` but its source is not among the files under verification; per the
spec it "removes the job from the active set" (an O(1) removal under lock). -/
def RemoveJob (active : List String) (jobID : String) : List String :=
  active.filter (fun a => !(a == jobID))

/-- Embedding of `JobManager.CancelJob` (src/jobs/manager.go): look up the
job; reject unless its status is running, pending or paused (mutating
nothing); otherwise set it cancelled with `completed_at = now`, remove it
from the pool's active set, and flip its pending tasks to skipped. -/
def CancelJob (st : ManagerState) (jobID : String) (now : Nat) :
    Option String × ManagerState :=
  match GetJob st.jobs jobID with
  | none => (some "failed to get job", st)
  | some job =>
    if job.status ≠ "running" ∧ job.status ≠ "pending" ∧ job.status ≠ "paused" then
      (some ("job cannot be canceled: " ++ job.status), st)
    else
      (none,
        { jobs := st.jobs.map (fun j =>
            if j.id == jobID then { j with status := "cancelled", completedAt := some now }
            else j)
          tasks := st.tasks.map (fun t =>
            if t.jobId == jobID && t.status == "pending" then { t with status := "skipped" }
            else t)
          activeJobs := RemoveJob st.activeJobs jobID })

/-- C7: cancelling a job that is neither pending, running nor paused returns
an error and leaves the whole state untouched; cancelling an eligible job
succeeds, marks it cancelled with `completed_at = now`, removes exactly it
from the active set, sends its pending tasks to skipped and keeps every
other task (and every other job) unchanged. -/
theorem cancelJob_spec (st : ManagerState) (job : Job) (jobID : String) (now : Nat)
    (hfind : GetJob st.jobs jobID = some job) :
    ((job.status ≠ "running" ∧ job.status ≠ "pending" ∧ job.status ≠ "paused") →
        CancelJob st jobID now = (some ("job cannot be canceled: " ++ job.status), st)) ∧
      ((job.status = "running" ∨ job.status = "pending" ∨ job.status = "paused") →
        (CancelJob st jobID now).1 = none ∧
          jobID ∉ (CancelJob st jobID now).2.activeJobs ∧
          (∀ a ∈ st.activeJobs, a ≠ jobID → a ∈ (CancelJob st jobID now).2.activeJobs) ∧
          (∀ j ∈ (CancelJob st jobID now).2.jobs, j.id = jobID →
            j.status = "cancelled" ∧ j.completedAt = some now) ∧
          (∀ j ∈ st.jobs, j.id ≠ jobID → j ∈ (CancelJob st jobID now).2.jobs) ∧
          (∀ t ∈ st.tasks, t.jobId = jobID → t.status = "pending" →
            { t with status := "skipped" } ∈ (CancelJob st jobID now).2.tasks) ∧
          (∀ t ∈ st.tasks, t.jobId ≠ jobID ∨ t.status ≠ "pending" →
            t ∈ (CancelJob st jobID now).2.tasks)) := by
  have hnotelig : ∀ (h : job.status ≠ "running" ∧ job.status ≠ "pending" ∧
      job.status ≠ "paused"), CancelJob st jobID now
        = (some ("job cannot be canceled: " ++ job.status), st) := by
    intro h
    simp only [CancelJob, hfind]
    rw [if_pos h]
  refine ⟨hnotelig, ?_⟩
  intro helig
  have hcond : ¬(job.status ≠ "running" ∧ job.status ≠ "pending" ∧
      job.status ≠ "paused") := by
    rcases helig with h | h | h <;> simp [h]
  have hres : CancelJob st jobID now
      = (none,
          { jobs := st.jobs.map (fun j =>
              if j.id == jobID then { j with status := "cancelled", completedAt := some now }
              else j)
            tasks := st.tasks.map (fun t =>
              if t.jobId == jobID && t.status == "pending" then { t with status := "skipped" }
              else t)
            activeJobs := RemoveJob st.activeJobs jobID }) := by
    simp only [CancelJob, hfind]
    rw [if_neg hcond]
  rw [hres]
  refine ⟨rfl, ?_, ?_, ?_, ?_, ?_, ?_⟩
  · intro hmm
    rcases List.mem_filter.mp hmm with ⟨-, hpred⟩
    simp at hpred
  · intro a ha hane
    exact List.mem_filter.mpr ⟨ha, by simpa using hane⟩
  · intro j hj hid
    rcases List.mem_map.mp hj with ⟨j0, hj0, hj0eq⟩
    have hj0eq2 : (if (j0.id == jobID) = true
        then { j0 with status := "cancelled", completedAt := some now } else j0) = j := hj0eq
    by_cases hc : (j0.id == jobID) = true
    · rw [if_pos hc] at hj0eq2
      rw [← hj0eq2]
      exact ⟨rfl, rfl⟩
    · rw [if_neg hc] at hj0eq2
      rw [hj0eq2] at hc
      exact absurd (beq_iff_eq.mpr hid) hc
  · intro j hj hid
    refine List.mem_map.mpr ⟨j, hj, ?_⟩
    show (if (j.id == jobID) = true
        then { j with status := "cancelled", completedAt := some now } else j) = j
    rw [if_neg (by simpa using hid)]
  · intro t ht hjid hpend
    refine List.mem_map.mpr ⟨t, ht, ?_⟩
    show (if (t.jobId == jobID && t.status == "pending") = true
        then { t with status := "skipped" } else t) = { t with status := "skipped" }
    rw [if_pos (by simp [hjid, hpend])]
  · intro t ht hother
    refine List.mem_map.mpr ⟨t, ht, ?_⟩
    show (if (t.jobId == jobID && t.status == "pending") = true
        then { t with status := "skipped" } else t) = t
    rcases hother with h | h <;>
      rw [if_neg (by simp [h])]

/-- A second active job id that cancelling `job1` must keep. -/
def witnessState : ManagerState :=
  { jobs := [runningJob], tasks := [pendingTaskA, doneTask],
    activeJobs := ["job1", "job9"] }

/-- Witness for C7: cancelling the running job `job1` at time 8 in
`witnessState`. -/
theorem cancelJob_spec_witness :
    (CancelJob witnessState "job1" 8).1 = none ∧
      "job1" ∉ (CancelJob witnessState "job1" 8).2.activeJobs ∧
      (∀ a ∈ witnessState.activeJobs, a ≠ "job1" →
        a ∈ (CancelJob witnessState "job1" 8).2.activeJobs) ∧
      (∀ j ∈ (CancelJob witnessState "job1" 8).2.jobs, j.id = "job1" →
        j.status = "cancelled" ∧ j.completedAt = some 8) ∧
      (∀ j ∈ witnessState.jobs, j.id ≠ "job1" →
        j ∈ (CancelJob witnessState "job1" 8).2.jobs) ∧
      (∀ t ∈ witnessState.tasks, t.jobId = "job1" → t.status = "pending" →
        { t with status := "skipped" } ∈ (CancelJob witnessState "job1" 8).2.tasks) ∧
      (∀ t ∈ witnessState.tasks, t.jobId ≠ "job1" ∨ t.status ≠ "pending" →
        t ∈ (CancelJob witnessState "job1" 8).2.tasks) :=
  (cancelJob_spec witnessState runningJob "job1" 8 (by decide)).2 (Or.inl rfl)

/-- What the completion monitor's single UPDATE statement does to one job
row: `SET status = 'completed', completed_at = NOW() WHERE (completed_tasks +
failed_tasks) >= total_tasks AND status = 'running'`. -/
def tickOne (now : Nat) (j : Job) : Job :=
  if j.status = "running" ∧ j.completedTasks + j.failedTasks ≥ j.totalTasks then
    { j with status := "completed", completedAt := some now }
  else j

/-- One tick of the completion-monitor goroutine: the atomic UPDATE applied
across the whole `jobs` table. -/
def monitorTick (now : Nat) (jobs : List Job) : List Job :=
  jobs.map (tickOne now)

/-- The monitor statement is idempotent on a single row: counts are
untouched, and a row it completes no longer satisfies `status = 'running'`. -/
theorem tickOne_second (now now2 : Nat) (j : Job) :
    tickOne now2 (tickOne now j) = tickOne now j := by
  by_cases h : j.status = "running" ∧ j.completedTasks + j.failedTasks ≥ j.totalTasks
  · have hinner : tickOne now j = { j with status := "completed", completedAt := some now } := by
      rw [tickOne, if_pos h]
    rw [hinner, tickOne, if_neg]
    rintro ⟨hc, -⟩
    exact absurd hc (by simp)
  · have hinner : tickOne now j = j := by rw [tickOne, if_neg h]
    have hinner2 : tickOne now2 j = j := by rw [tickOne, if_neg h]
    rw [hinner, hinner2]

/-- C8: a monitor tick rewrites exactly the running jobs whose terminal
counts have reached `total_tasks`, setting them completed with
`completed_at = now`; it touches no job in any other status, and running a
second tick immediately changes nothing (already-completed jobs are no
longer `running`, and counts are untouched by the tick itself). -/
theorem completionMonitor_tick_spec (now now2 : Nat) (jobs : List Job) :
    (∀ j : Job, j.status ≠ "running" → tickOne now j = j) ∧
      (∀ j : Job, j.status = "running" → j.completedTasks + j.failedTasks ≥ j.totalTasks →
        tickOne now j = { j with status := "completed", completedAt := some now }) ∧
      monitorTick now2 (monitorTick now jobs) = monitorTick now jobs := by
  refine ⟨?_, ?_, ?_⟩
  · intro j hs
    rw [tickOne, if_neg]
    rintro ⟨h1, -⟩
    exact hs h1
  · intro j h1 h2
    rw [tickOne, if_pos ⟨h1, h2⟩]
  · simp only [monitorTick, List.map_map]
    refine List.map_congr_left ?_
    intro j _
    exact tickOne_second now now2 j

/-- A running job whose tasks are all terminal, for the monitor witness. -/
def monitoredJob : Job :=
  { id := "job3", status := "running", totalTasks := 2, completedTasks := 1,
    failedTasks := 1, progress := 100, completedAt := none }

/-- Witness for C8: the tick completes the drained running job, leaves the
cancelled job alone, and a second tick over the table is a no-op. -/
theorem completionMonitor_tick_spec_witness :
    tickOne 11 cancelledJob = cancelledJob ∧
      tickOne 11 monitoredJob
          = { monitoredJob with status := "completed", completedAt := some 11 } ∧
      monitorTick 12 (monitorTick 11 [cancelledJob, monitoredJob])
        = monitorTick 11 [cancelledJob, monitoredJob] :=
  ⟨(completionMonitor_tick_spec 11 12 [cancelledJob, monitoredJob]).1 cancelledJob
      (by decide),
    (completionMonitor_tick_spec 11 12 [cancelledJob, monitoredJob]).2.1 monitoredJob
      rfl (by decide),
    (completionMonitor_tick_spec 11 12 [cancelledJob, monitoredJob]).2.2⟩

/-- Substring check over character lists, the model of Go's
`strings.Contains`. -/
def listContainsSub (sub : List Char) : List Char → Bool
  | [] => sub.isEmpty
  | c :: t => sub.isPrefixOf (c :: t) || listContainsSub sub t

/-- Go's `strings.Contains(s, sub)`. -/
def goContains (s sub : String) : Bool :=
  listContainsSub sub.data s.data

/-- Embedding of `isSQLiteTransientError` (the db package): an error is
transient exactly when its message contains one of the three substrings. -/
def isSQLiteTransientError (msg : String) : Bool :=
  goContains msg "database is locked" || goContains msg "busy" ||
    goContains msg "connection reset by peer"

/-- The observable trace of one `ExecuteWithRetry` call: the returned error
(`none` on success), the back-off sleeps performed (in ms, in order), and how
many times the operation ran. -/
structure RetryTrace where
  result : Option String
  delays : List Nat
  attempts : Nat
  deriving Repr, DecidableEq

/-- The retry loop of `ExecuteWithRetry`: the remaining attempt numbers drive
the recursion (`for attempt := 0; attempt <= retries; attempt++` with
`retries = 3`); before attempt `k > 0` it sleeps `100ms * 2^(k-1)`; a `nil`
result returns success, a transient error retries, a non-transient error
returns at once, and an exhausted loop wraps the last error. -/
def retryLoop (op : Nat → Option String) : List Nat → Option String → RetryTrace
  | [], lastErr =>
    { result := some ("database operation failed after 4 attempts: " ++ lastErr.getD ""),
      delays := [], attempts := 0 }
  | attempt :: restAttempts, lastErr =>
    let ds : List Nat := if attempt > 0 then [100 * 2 ^ (attempt - 1)] else []
    match op attempt with
    | none => { result := none, delays := ds, attempts := 1 }
    | some e =>
      if isSQLiteTransientError e then
        { result := (retryLoop op restAttempts (some e)).result,
          delays := ds ++ (retryLoop op restAttempts (some e)).delays,
          attempts := (retryLoop op restAttempts (some e)).attempts + 1 }
      else { result := some e, delays := ds, attempts := 1 }

/-- Embedding of `DB.ExecuteWithRetry`: `retries = 3`, so attempts 0..3;
`op k` is the outcome of the k-th run of the operation. -/
def ExecuteWithRetry (op : Nat → Option String) : RetryTrace :=
  retryLoop op [0, 1, 2, 3] none

/-- C9: a non-transient error surfaces immediately after one attempt and no
sleep; a transient error is retried after a 100 ms delay (success on the
retry ends the call after two attempts); and with every attempt failing
transiently the call performs exactly the three retries with delays 100,
200, 400 ms and surfaces the last error wrapped in the failure message. -/
theorem executeWithRetry_spec (op : Nat → Option String) :
    (∀ e, op 0 = some e → isSQLiteTransientError e = false →
        ExecuteWithRetry op = { result := some e, delays := [], attempts := 1 }) ∧
      (∀ e, op 0 = some e → isSQLiteTransientError e = true → op 1 = none →
        ExecuteWithRetry op = { result := none, delays := [100], attempts := 2 }) ∧
      ((∀ k, k ≤ 3 → ∃ e, op k = some e ∧ isSQLiteTransientError e = true) →
        ∃ e3, op 3 = some e3 ∧
          ExecuteWithRetry op
            = { result := some ("database operation failed after 4 attempts: " ++ e3),
                delays := [100, 200, 400], attempts := 4 }) := by
  refine ⟨?_, ?_, ?_⟩
  · intro e h0 ht
    simp [ExecuteWithRetry, retryLoop, h0, ht]
  · intro e h0 ht h1
    simp [ExecuteWithRetry, retryLoop, h0, ht, h1]
  · intro h
    obtain ⟨e0, h0, t0⟩ := h 0 (by norm_num)
    obtain ⟨e1, h1, t1⟩ := h 1 (by norm_num)
    obtain ⟨e2, h2, t2⟩ := h 2 (by norm_num)
    obtain ⟨e3, h3, t3⟩ := h 3 (by norm_num)
    refine ⟨e3, h3, ?_⟩
    simp [ExecuteWithRetry, retryLoop, h0, t0, h1, t1, h2, t2, h3, t3]

/-- An operation that hits a lock twice and then succeeds. -/
def flakyOp : Nat → Option String
  | 0 => some "database is locked"
  | _ => none

/-- An operation that always reports the database busy. -/
def busyOp : Nat → Option String :=
  fun _ => some "database is busy"

/-- An operation failing with a non-transient error. -/
def fatalOp : Nat → Option String :=
  fun _ => some "no such table: tasks"

/-- Witness for C9: the three behaviours at concrete operations. -/
theorem executeWithRetry_spec_witness :
    ExecuteWithRetry fatalOp
        = { result := some "no such table: tasks", delays := [], attempts := 1 } ∧
      ExecuteWithRetry flakyOp = { result := none, delays := [100], attempts := 2 } ∧
      ∃ e3, busyOp 3 = some e3 ∧
        ExecuteWithRetry busyOp
          = { result := some ("database operation failed after 4 attempts: " ++ e3),
              delays := [100, 200, 400], attempts := 4 } :=
  ⟨(executeWithRetry_spec fatalOp).1 "no such table: tasks" rfl (by decide),
    (executeWithRetry_spec flakyOp).2.1 "database is locked" rfl (by decide) rfl,
    (executeWithRetry_spec busyOp).2.2
      (fun k _ => ⟨"database is busy", rfl, by decide⟩)⟩

end CacheWarmer
